import Mathlib

set_option maxHeartbeats 1000000
set_option maxRecDepth 100000

/-!
Shallow embedding of the muffafa-music core: the filename sanitizers, the URL
validator, the filesystem scanner, the batch conversion driver, the remote
resolver/fetcher boundaries, and the download queue, translated from
src/youtube_downloader.py, src/audio_converter.py and src/modern_app.py.
External effects (filesystem, network, the audio engine, user dialogs) are
passed in as explicit oracles or views, so every definition is executable.
-/

/-- The characters replaced by the sanitizers: the Python string of nine invalid
filename characters. -/
def invalid_chars : List Char := ['<', '>', ':', '\"', '/', '\\', '|', '?', '*']

/-- One pass of Python str.replace, sending every occurrence of c to an underscore. -/
def replace_char (c : Char) (s : List Char) : List Char :=
  s.map fun x => if x = c then '_' else x

/-- The loop `for char in invalid_chars: filename = filename.replace(char, "_")`
from sanitize_filename (both copies share it verbatim). -/
def replace_invalid (s : List Char) : List Char :=
  invalid_chars.foldl (fun acc c => replace_char c acc) s

/-- ASCII whitespace, as stripped by Python str.strip() and matched by the regex
class backslash-s. -/
def pyIsSpace (c : Char) : Bool :=
  c = ' ' || c = '\t' || c = '\n' || c = '\r' || c = '\x0b' || c = '\x0c'

/-- Python str.lstrip restricted to characters satisfying p. -/
def lstrip_by (p : Char → Bool) (s : List Char) : List Char := s.dropWhile p

/-- Python str.rstrip restricted to characters satisfying p. -/
def rstrip_by (p : Char → Bool) (s : List Char) : List Char := (s.reverse.dropWhile p).reverse

/-- Python str.strip with an explicit character class p, from both ends. -/
def strip_by (p : Char → Bool) (s : List Char) : List Char := rstrip_by p (lstrip_by p s)

/-- Helper for collapse_ws: the flag records whether we are inside a whitespace run. -/
def collapse_ws_aux : Bool → List Char → List Char
  | _, [] => []
  | inRun, c :: cs =>
    if pyIsSpace c then
      if inRun then collapse_ws_aux true cs else ' ' :: collapse_ws_aux true cs
    else c :: collapse_ws_aux false cs

/-- The substitution `re.sub` of one-or-more whitespace with a single space:
every maximal run of whitespace characters becomes one space. -/
def collapse_ws (s : List Char) : List Char := collapse_ws_aux false s

/-- youtube_downloader.sanitize_filename, on the characters of the string:
replace the invalid characters, strip whitespace, collapse whitespace runs,
strip dots, and cut to 200 characters. -/
def sanitize_filename (s : List Char) : List Char :=
  let s1 := replace_invalid s
  let s2 := strip_by (fun c => c = '.') (collapse_ws (strip_by pyIsSpace s1))
  if s2.length > 200 then s2.take 200 else s2

namespace ModernAudioConverter

/-- The method sanitize_filename of ModernAudioConverter in modern_app.py: the same
replacement loop, but only one strip of spaces and dots (no whitespace collapsing)
before the 200-character cut. -/
def sanitize_filename (s : List Char) : List Char :=
  let s1 := replace_invalid s
  let s2 := strip_by (fun c => c = ' ' || c = '.') s1
  if s2.length > 200 then s2.take 200 else s2

end ModernAudioConverter

/-- Consume a literal at the head of the input, returning the rest, or none when
the input does not start with that literal. -/
def drop_lit : List Char → List Char → Option (List Char)
  | [], s => some s
  | _ :: _, [] => none
  | c :: cs, x :: xs => if x = c then drop_lit cs xs else none

/-- The regex character class of lowercase, uppercase, digits, underscore and hyphen. -/
def isIdChar (c : Char) : Bool :=
  ('a' ≤ c && c ≤ 'z') || ('A' ≤ c && c ≤ 'Z') || ('0' ≤ c && c ≤ '9') || c = '_' || c = '-'

/-- An 11-character video-id token at the start of s; the rest of s is
unconstrained because re.match only anchors at the beginning of the string. -/
def matches_id11 (s : List Char) : Bool :=
  decide (11 ≤ s.length) && (s.take 11).all isIdChar

/-- Possible remainders after the optional scheme group (nothing, http://, https://). -/
def scheme_opts (s : List Char) : List (List Char) :=
  [some s, drop_lit "http://".data s, drop_lit "https://".data s].filterMap id

/-- Possible remainders after the optional www-dot group. -/
def www_opts (s : List Char) : List (List Char) :=
  [some s, drop_lit "www.".data s].filterMap id

/-- Whether re.match succeeds on s for one youtube_patterns entry: optional scheme,
optional www-dot, the given host literal, then an 11-character id token. -/
def matches_host_pattern (host : List Char) (s : List Char) : Bool :=
  (scheme_opts s).any fun s1 => (www_opts s1).any fun s2 =>
    match drop_lit host s2 with
    | some r => matches_id11 r
    | none => false

/-- The four host literals of youtube_patterns, in source order. -/
def youtube_hosts : List (List Char) :=
  ["youtube.com/watch?v=".data, "youtu.be/".data, "youtube.com/embed/".data,
    "youtube.com/v/".data]

/-- youtube_downloader.validate_youtube_url: empty input fails, otherwise the
stripped input is tried against the four patterns. -/
def validate_youtube_url (url : List Char) : Bool :=
  if url = [] then false
  else youtube_hosts.any fun h => matches_host_pattern h (strip_by pyIsSpace url)

theorem mem_replace_char {c x : Char} {s : List Char} (hx : x ∈ replace_char c s) :
    x ∈ s ∨ x = '_' := by
  rcases List.mem_map.1 hx with ⟨y, hy, hxy⟩
  by_cases h : y = c
  · right; rw [if_pos h] at hxy; exact hxy.symm
  · left; rw [if_neg h] at hxy; exact hxy ▸ hy

theorem mem_foldl_replace {x : Char} (r s : List Char)
    (h : x ∈ r.foldl (fun acc c => replace_char c acc) s) : x ∈ s ∨ x = '_' := by
  induction r generalizing s with
  | nil => exact Or.inl h
  | cons c r ih =>
    rcases ih (replace_char c s) h with h' | h'
    · exact mem_replace_char h'
    · exact Or.inr h'

theorem mem_replace_invalid {x : Char} {s : List Char} (h : x ∈ replace_invalid s) :
    x ∈ s ∨ x = '_' := mem_foldl_replace invalid_chars s h

theorem replace_invalid_no_space {s : List Char} (hs : ∀ c ∈ s, pyIsSpace c = false) :
    ∀ c ∈ replace_invalid s, pyIsSpace c = false := by
  intro c hc
  rcases mem_replace_invalid hc with h | h
  · exact hs c h
  · subst h; decide

theorem dropWhile_eq_self {p : Char → Bool} {l : List Char} (h : ∀ c ∈ l, p c = false) :
    l.dropWhile p = l := by
  cases l with
  | nil => rfl
  | cons a t => rw [List.dropWhile_cons, h a (List.mem_cons_self a t)]; simp

theorem strip_by_eq_self {p : Char → Bool} {l : List Char} (h : ∀ c ∈ l, p c = false) :
    strip_by p l = l := by
  unfold strip_by lstrip_by rstrip_by
  rw [dropWhile_eq_self h, dropWhile_eq_self (fun c hc => h c (List.mem_reverse.1 hc))]
  exact List.reverse_reverse l

theorem collapse_ws_aux_eq_self {l : List Char} (h : ∀ c ∈ l, pyIsSpace c = false) :
    ∀ b, collapse_ws_aux b l = l := by
  induction l with
  | nil => intro b; rfl
  | cons c cs ih =>
    intro b
    rw [collapse_ws_aux, h c (List.mem_cons_self c cs)]
    simp only [Bool.false_eq_true, if_false]
    rw [ih (fun x hx => h x (List.mem_cons_of_mem c hx)) false]

theorem collapse_ws_eq_self {l : List Char} (h : ∀ c ∈ l, pyIsSpace c = false) :
    collapse_ws l = l := collapse_ws_aux_eq_self h false

theorem dropWhile_congr_mem {p q : Char → Bool} {l : List Char}
    (h : ∀ c ∈ l, p c = q c) : l.dropWhile p = l.dropWhile q := by
  induction l with
  | nil => rfl
  | cons a t ih =>
    rw [List.dropWhile_cons, List.dropWhile_cons, h a (List.mem_cons_self a t),
      ih (fun c hc => h c (List.mem_cons_of_mem a hc))]

theorem strip_by_congr_mem {p q : Char → Bool} {l : List Char}
    (h : ∀ c ∈ l, p c = q c) : strip_by p l = strip_by q l := by
  unfold strip_by lstrip_by rstrip_by
  rw [dropWhile_congr_mem h]
  exact congrArg List.reverse (dropWhile_congr_mem (fun c hc =>
    h c ((List.dropWhile_sublist q).subset (List.mem_reverse.1 hc))))

/-- C2 (amended): on titles that contain no whitespace character, the fetcher's
sanitizer (youtube_downloader.sanitize_filename) and the queue's sanitizer
(ModernAudioConverter.sanitize_filename) agree; on general titles they differ,
see the counterexample. -/
theorem c2_sanitizers_agree_without_whitespace (s : List Char)
    (h : ∀ c ∈ s, pyIsSpace c = false) :
    sanitize_filename s = ModernAudioConverter.sanitize_filename s := by
  have h1 := replace_invalid_no_space h
  have hcongr : strip_by (fun c => c = '.') (replace_invalid s) =
      strip_by (fun c => c = ' ' || c = '.') (replace_invalid s) := by
    refine strip_by_congr_mem (fun c hc => ?_)
    have hns := h1 c hc
    by_cases hc' : c = ' '
    · subst hc'; simp [pyIsSpace] at hns
    · simp [hc']
  simp only [sanitize_filename, ModernAudioConverter.sanitize_filename,
    strip_by_eq_self h1, collapse_ws_eq_self h1, hcongr]

/-- C2 counterexample: the two sanitizers differ on the title "a  b" with two
spaces, which the fetcher's sanitizer collapses and the queue's does not. -/
theorem c2_counterexample :
    sanitize_filename "a  b".data ≠ ModernAudioConverter.sanitize_filename "a  b".data := by
  decide

/-- Witness for C2's amended theorem at the concrete whitespace-free title "abc". -/
theorem c2_witness :
    (∀ c ∈ "abc".data, pyIsSpace c = false) ∧
      sanitize_filename "abc".data = ModernAudioConverter.sanitize_filename "abc".data :=
  ⟨by decide, c2_sanitizers_agree_without_whitespace "abc".data (by decide)⟩

/-- C4: validate_youtube_url is a pure pattern check, accepting exactly the
nonempty strings whose stripped form matches one of the four surface patterns
(watch-page, short-link, embed, direct-video-id), and it gives the spec's
required answers on the six example URLs. -/
theorem c4_validate_url :
    (∀ url : List Char, validate_youtube_url url =
      if url = [] then false
      else
        matches_host_pattern "youtube.com/watch?v=".data (strip_by pyIsSpace url) ||
        (matches_host_pattern "youtu.be/".data (strip_by pyIsSpace url) ||
        (matches_host_pattern "youtube.com/embed/".data (strip_by pyIsSpace url) ||
        matches_host_pattern "youtube.com/v/".data (strip_by pyIsSpace url))))
    ∧ validate_youtube_url "https://www.youtube.com/watch?v=dQw4w9WgXcQ".data = true
    ∧ validate_youtube_url "https://youtu.be/dQw4w9WgXcQ".data = true
    ∧ validate_youtube_url "youtube.com/embed/dQw4w9WgXcQ".data = true
    ∧ validate_youtube_url "".data = false
    ∧ validate_youtube_url "https://example.com/watch?v=dQw4w9WgXcQ".data = false
    ∧ validate_youtube_url "https://youtu.be/short".data = false := by
  refine ⟨?_, by decide, by decide, by decide, by decide, by decide, by decide⟩
  intro url
  by_cases h : url = []
  · simp [validate_youtube_url, h]
  · simp [validate_youtube_url, youtube_hosts, h, List.any_cons, List.any_nil]

/-- The simultaneous character-level replacement that the sequential replace loop
of the sanitizers computes. -/
def sanitize_char (c : Char) : Char := if c ∈ invalid_chars then '_' else c

/-- Effect of the whole replace loop on one character. -/
def apply_replaces (r : List Char) (c : Char) : Char :=
  r.foldl (fun x ch => if x = ch then '_' else x) c

theorem foldl_replace_nil (r : List Char) :
    r.foldl (fun acc c => replace_char c acc) [] = [] := by
  induction r with
  | nil => rfl
  | cons c r ih => exact ih

theorem foldl_replace_cons (r : List Char) (c : Char) (s : List Char) :
    r.foldl (fun acc ch => replace_char ch acc) (c :: s) =
      apply_replaces r c :: r.foldl (fun acc ch => replace_char ch acc) s := by
  induction r generalizing c s with
  | nil => rfl
  | cons ch r ih => exact ih (if c = ch then '_' else c) (replace_char ch s)

theorem apply_replaces_invalid (c : Char) : apply_replaces invalid_chars c = sanitize_char c := by
  by_cases h1 : c = '<'
  · subst h1; decide
  by_cases h2 : c = '>'
  · subst h2; decide
  by_cases h3 : c = ':'
  · subst h3; decide
  by_cases h4 : c = '\"'
  · subst h4; decide
  by_cases h5 : c = '/'
  · subst h5; decide
  by_cases h6 : c = '\\'
  · subst h6; decide
  by_cases h7 : c = '|'
  · subst h7; decide
  by_cases h8 : c = '?'
  · subst h8; decide
  by_cases h9 : c = '*'
  · subst h9; decide
  simp [apply_replaces, invalid_chars, sanitize_char, List.foldl,
    h1, h2, h3, h4, h5, h6, h7, h8, h9]

theorem replace_invalid_eq_map (s : List Char) : replace_invalid s = s.map sanitize_char := by
  induction s with
  | nil => exact foldl_replace_nil invalid_chars
  | cons c t ih =>
    show invalid_chars.foldl (fun acc ch => replace_char ch acc) (c :: t) = _
    rw [foldl_replace_cons, apply_replaces_invalid, List.map_cons]
    exact congrArg _ ih

/-- The sanitizer exactly as claim C8 words it: replace the invalid characters,
collapse whitespace runs, strip spaces and dots from both ends, truncate. -/
def sanitize_claimed (s : List Char) : List Char :=
  (strip_by (fun c => c = ' ' || c = '.') (collapse_ws (replace_invalid s))).take 200

/-- C8 counterexample: on the title ". a ." the code's sanitizer leaves the spaces
that stripping the dots exposes, while the claimed description strips them. -/
theorem c8_counterexample :
    sanitize_filename ". a .".data ≠ sanitize_claimed ". a .".data := by decide

/-- C8 (amended): sanitize_filename is the pure function that replaces each
invalid character with an underscore, strips leading and trailing whitespace,
collapses every interior whitespace run to one space, then strips leading and
trailing dots (a space exposed next to a stripped dot remains), and finally cuts
to at most 200 characters; the spec's two examples hold. -/
theorem c8_sanitize_characterization :
    (∀ s : List Char, sanitize_filename s =
      (let t := strip_by (fun c => c = '.')
          (collapse_ws (strip_by pyIsSpace (s.map sanitize_char)))
       if t.length > 200 then t.take 200 else t))
    ∧ sanitize_filename "a/b:c*d?e".data = "a_b_c_d_e".data
    ∧ (sanitize_filename (List.replicate 300 'a')).length = 200 := by
  refine ⟨?_, by decide, by decide⟩
  intro s
  simp only [sanitize_filename, replace_invalid_eq_map]

/-- A file-information dictionary as built by find_audio_files and consumed by
batch_convert_audio; the Python key named exists is exists_flag here. -/
structure FileInfo where
  source : String
  dest : String
  filename : String
  output_name : String
  size : Nat
  exists_flag : Bool
deriving DecidableEq

/-- Outcome of the external audio engine on one source file: a clean conversion,
a CouldntDecodeError, or any other exception carrying its message. -/
inductive ConvResult
  | ok
  | couldntDecode
  | exn (msg : String)
deriving DecidableEq

/-- The results dictionary of batch_convert_audio. -/
structure BatchResults where
  success : Nat
  failed : Nat
  skipped : Nat
  errors : List String
deriving DecidableEq

/-- One invocation of the progress callback of batch_convert_audio:
(converted_count, total_count, label, flag), where the flag is none for the
in-flight report issued just before a conversion starts. -/
structure ProgressCall where
  done : Nat
  total : Nat
  label : String
  flag : Option Bool
deriving DecidableEq

/-- The loop of batch_convert_audio from 0-based index i on, threading the
results dictionary and the ordered list of progress-callback invocations. The
oracle conv stands for the decode-and-export block of the try body; makedirs
with exist_ok is modeled as never failing. -/
def batch_convert_go (conv : String → ConvResult) (total : Nat) :
    Nat → List FileInfo → BatchResults → List ProgressCall →
      BatchResults × List ProgressCall
  | _, [], r, t => (r, t)
  | i, f :: fs, r, t =>
    if f.exists_flag then
      batch_convert_go conv total (i + 1) fs { r with skipped := r.skipped + 1 }
        (t ++ [⟨i + 1, total, "Atlandı: " ++ f.filename, some true⟩])
    else
      let t1 := t ++ [⟨i + 1, total, "Dönüştürülüyor: " ++ f.filename, none⟩]
      match conv f.source with
      | .ok =>
        batch_convert_go conv total (i + 1) fs { r with success := r.success + 1 }
          (t1 ++ [⟨i + 1, total, "Tamamlandı: " ++ f.filename, some true⟩])
      | .couldntDecode =>
        batch_convert_go conv total (i + 1) fs
          { r with failed := r.failed + 1,
                   errors := r.errors ++ ["Desteklenmeyen format: " ++ f.filename] }
          (t1 ++ [⟨i + 1, total, "Hata: " ++ f.filename, some false⟩])
      | .exn m =>
        batch_convert_go conv total (i + 1) fs
          { r with failed := r.failed + 1,
                   errors := r.errors ++ ["Hata (" ++ f.filename ++ "): " ++ m] }
          (t1 ++ [⟨i + 1, total, "Hata: " ++ f.filename, some false⟩])

/-- audio_converter.batch_convert_audio: the early return on an empty list gives
the same zero dictionary the loop would, so both paths are the fold. -/
def batch_convert_audio (conv : String → ConvResult) (files : List FileInfo) :
    BatchResults × List ProgressCall :=
  batch_convert_go conv files.length 0 files ⟨0, 0, 0, []⟩ []

/-- The error message the driver records for one item, if any. -/
def item_error (conv : String → ConvResult) (f : FileInfo) : Option String :=
  if f.exists_flag then none
  else match conv f.source with
  | .ok => none
  | .couldntDecode => some ("Desteklenmeyen format: " ++ f.filename)
  | .exn m => some ("Hata (" ++ f.filename ++ "): " ++ m)

/-- The ordered error messages of one whole run. -/
def batch_errors (conv : String → ConvResult) (fs : List FileInfo) : List String :=
  fs.filterMap (item_error conv)

/-- Number of items the driver converts successfully. -/
def count_ok (conv : String → ConvResult) (fs : List FileInfo) : Nat :=
  fs.countP fun f => !f.exists_flag && decide (conv f.source = .ok)

/-- Number of items the driver skips (those whose scan-time flag is set). -/
def count_skip (fs : List FileInfo) : Nat :=
  fs.countP fun f => f.exists_flag

/-- The progress calls the driver issues for the item at 0-based index i. -/
def item_trace (conv : String → ConvResult) (total i : Nat) (f : FileInfo) :
    List ProgressCall :=
  if f.exists_flag then [⟨i + 1, total, "Atlandı: " ++ f.filename, some true⟩]
  else
    ⟨i + 1, total, "Dönüştürülüyor: " ++ f.filename, none⟩ ::
      match conv f.source with
      | .ok => [⟨i + 1, total, "Tamamlandı: " ++ f.filename, some true⟩]
      | .couldntDecode => [⟨i + 1, total, "Hata: " ++ f.filename, some false⟩]
      | .exn _ => [⟨i + 1, total, "Hata: " ++ f.filename, some false⟩]

/-- The whole expected trace from 0-based index i on. -/
def batch_trace (conv : String → ConvResult) (total : Nat) :
    Nat → List FileInfo → List ProgressCall
  | _, [] => []
  | i, f :: fs => item_trace conv total i f ++ batch_trace conv total (i + 1) fs

theorem batch_convert_go_spec (conv : String → ConvResult) (total : Nat) :
    ∀ (fs : List FileInfo) (i : Nat) (r : BatchResults) (t : List ProgressCall),
      batch_convert_go conv total i fs r t =
        (⟨r.success + count_ok conv fs, r.failed + (batch_errors conv fs).length,
          r.skipped + count_skip fs, r.errors ++ batch_errors conv fs⟩,
          t ++ batch_trace conv total i fs) := by
  intro fs
  induction fs with
  | nil =>
    intro i r t
    simp [batch_convert_go, count_ok, count_skip, batch_errors, batch_trace]
  | cons f fs ih =>
    intro i r t
    by_cases hf : f.exists_flag
    · rw [batch_convert_go, if_pos hf, ih]
      simp [count_ok, count_skip, batch_errors, batch_trace, item_error, item_trace,
        hf, List.countP_cons, List.filterMap_cons]
      omega
    · rw [batch_convert_go, if_neg hf]
      rcases hconv : conv f.source with _ | _ | m <;>
        · simp only [ih]
          simp [count_ok, count_skip, batch_errors, batch_trace, item_error, item_trace,
            hf, hconv, List.countP_cons, List.filterMap_cons]
          try omega

theorem batch_partition (conv : String → ConvResult) :
    ∀ fs : List FileInfo,
      count_ok conv fs + (batch_errors conv fs).length + count_skip fs = fs.length := by
  intro fs
  induction fs with
  | nil => rfl
  | cons f fs ih =>
    simp only [count_ok, count_skip, batch_errors, List.countP_cons,
      List.filterMap_cons, item_error, List.length_cons] at *
    by_cases hf : f.exists_flag
    · simp [hf]; omega
    · rcases hconv : conv f.source with _ | _ | m <;> simp [hf, hconv] <;> omega

/-- C10: the three counters of a batch_convert_audio outcome always partition the
input list, and the error list carries exactly one message per failed item, in
processing order. -/
theorem c10_outcome_partition (conv : String → ConvResult) (files : List FileInfo) :
    (batch_convert_audio conv files).1.success + (batch_convert_audio conv files).1.failed +
        (batch_convert_audio conv files).1.skipped = files.length
    ∧ (batch_convert_audio conv files).1.errors = batch_errors conv files
    ∧ (batch_convert_audio conv files).1.errors.length =
        (batch_convert_audio conv files).1.failed := by
  rw [batch_convert_audio, batch_convert_go_spec]
  refine ⟨?_, by simp, by simp⟩
  simpa using batch_partition conv files

/-- C6: failure handling of the driver. A decode failure contributes the
distinguishable unsupported-format message, any other exception contributes the
generic message carrying the underlying details (see item_error), failed counts
exactly those messages, and the trace is the concatenation of the per-item
traces — every failing item gets a terminal progress call with flag false
(see item_trace) and every later item is still processed, so no single failure
aborts the batch. -/
theorem c6_failures_recorded_and_batch_continues
    (conv : String → ConvResult) (files : List FileInfo) :
    (batch_convert_audio conv files).1.errors = batch_errors conv files
    ∧ (batch_convert_audio conv files).1.failed = (batch_errors conv files).length
    ∧ (batch_convert_audio conv files).2 = batch_trace conv files.length 0 files := by
  rw [batch_convert_audio, batch_convert_go_spec]
  exact ⟨by simp, by simp, by simp⟩

/-- C1: the driver decides the skip from the scan-time exists flag alone (it
takes no filesystem view, so no convert-time re-check can occur). With the
engine succeeding, an item whose flag is false is converted even if its
destination file appeared after the scan, and an item whose flag is true is
skipped even if its destination file was deleted after the scan. -/
theorem c1_skip_uses_scan_time_flag :
    (batch_convert_audio (fun _ => ConvResult.ok)
        [⟨"src/a.m4a", "out/a.mp3", "a.m4a", "a.mp3", 1, false⟩]).1 = ⟨1, 0, 0, []⟩
    ∧ (batch_convert_audio (fun _ => ConvResult.ok)
        [⟨"src/b.m4a", "out/b.mp3", "b.m4a", "b.mp3", 1, true⟩]).1 = ⟨0, 0, 1, []⟩ :=
  ⟨rfl, rfl⟩

/-- A file of the scanned source tree: its subdirectory components below the
source folder, its final name, and its byte size. -/
structure TreeFile where
  relpath : List String
  name : String
  size : Nat
deriving DecidableEq

/-- The filesystem view the scanner consults: whether the source folder exists,
the files of its full subtree in rglob order, and the destination paths that
exist at scan time. -/
structure ScanFS where
  source_exists : Bool
  files : List TreeFile
  dest_exists : List String

/-- Index of the last dot of a name, as Python str.rfind computes it
(none standing for -1). -/
def rfind_dot (s : List Char) : Option Nat :=
  match s.reverse.findIdx? (fun c => c = '.') with
  | some j => some (s.length - 1 - j)
  | none => none

/-- pathlib suffix: the part of the name from its last dot on, unless that dot
is leading or trailing. -/
def path_suffix (name : List Char) : List Char :=
  match rfind_dot name with
  | some i => if 0 < i ∧ i < name.length - 1 then name.drop i else []
  | none => []

/-- pathlib stem: the name with its suffix removed. -/
def path_stem (name : List Char) : List Char :=
  match rfind_dot name with
  | some i => if 0 < i ∧ i < name.length - 1 then name.take i else name
  | none => name

/-- Python str.lower, per character. -/
def to_lower (s : List Char) : List Char := s.map Char.toLower

/-- The supported_formats set of audio_converter. -/
def supported_formats : List (List Char) :=
  [".m4a".data, ".mp4".data, ".wav".data, ".flac".data, ".aac".data, ".ogg".data,
    ".wma".data]

/-- The match test of the scanner loop: the lowercased suffix is supported. -/
def is_audio_file (name : String) : Bool :=
  supported_formats.contains (to_lower (path_suffix name.data))

/-- The absolute source path of a tree file, recorded in the ScanItem. -/
def tree_path (root : String) (f : TreeFile) : String :=
  String.intercalate "/" (root :: (f.relpath ++ [f.name]))

/-- The dictionary find_audio_files appends for one matching file. -/
def mk_scan_item (fs : ScanFS) (source_folder dest_folder : String) (f : TreeFile) :
    FileInfo :=
  let output_name := String.mk (path_stem f.name.data) ++ ".mp3"
  let dest := dest_folder ++ "/" ++ output_name
  ⟨tree_path source_folder f, dest, f.name, output_name, f.size,
    fs.dest_exists.contains dest⟩

/-- audio_converter.find_audio_files over the filesystem view. -/
def find_audio_files (fs : ScanFS) (source_folder dest_folder : String) : List FileInfo :=
  if !fs.source_exists then []
  else fs.files.filterMap fun f =>
    if is_audio_file f.name then some (mk_scan_item fs source_folder dest_folder f)
    else none

theorem filterMap_if_eq_map_filter {α β : Type} (p : α → Bool) (g : α → β) (l : List α) :
    (l.filterMap fun a => if p a then some (g a) else none) = (l.filter p).map g := by
  induction l with
  | nil => rfl
  | cons a t ih =>
    by_cases h : p a
    · simp [List.filterMap_cons, List.filter_cons, h, ih]
    · simp [List.filterMap_cons, List.filter_cons, h, ih]

/-- C5: the scanner yields exactly one ScanItem per file of the full subtree
whose extension, lowercased, is in the supported set and none for any other
file; each item's dest is dest_folder/stem.mp3, independent of the file's
subdirectory depth; and a missing source folder yields the empty list. -/
theorem c5_scan_items (fs : ScanFS) (source_folder dest_folder : String) :
    (fs.source_exists = false → find_audio_files fs source_folder dest_folder = [])
    ∧ (fs.source_exists = true →
        find_audio_files fs source_folder dest_folder =
          (fs.files.filter fun f => is_audio_file f.name).map
            (mk_scan_item fs source_folder dest_folder))
    ∧ (∀ it ∈ find_audio_files fs source_folder dest_folder,
        it.dest = dest_folder ++ "/" ++ (String.mk (path_stem it.filename.data) ++ ".mp3")) := by
  have key : fs.source_exists = true →
      find_audio_files fs source_folder dest_folder =
        (fs.files.filter fun f => is_audio_file f.name).map
          (mk_scan_item fs source_folder dest_folder) := by
    intro h
    simp only [find_audio_files, h, Bool.not_true, Bool.false_eq_true, if_false]
    exact filterMap_if_eq_map_filter _ _ _
  refine ⟨?_, key, ?_⟩
  · intro h; simp [find_audio_files, h]
  · intro it hit
    cases hsrc : fs.source_exists with
    | false => simp [find_audio_files, hsrc] at hit
    | true =>
      rw [key hsrc] at hit
      obtain ⟨f, -, rfl⟩ := List.mem_map.1 hit
      rfl

/-- Concrete scan view for the C5 witness: one matching file three levels deep
and one non-audio file. -/
def c5_fs : ScanFS :=
  ⟨true, [⟨["sub", "deep"], "Song.M4A", 5⟩, ⟨[], "notes.txt", 2⟩], []⟩

/-- The same view with the source folder missing. -/
def c5_fs_missing : ScanFS :=
  ⟨false, [⟨["sub", "deep"], "Song.M4A", 5⟩, ⟨[], "notes.txt", 2⟩], []⟩

/-- Witness for C5 at the two concrete views: the existing tree maps to exactly
its one matching file (with depth-independent dest), the missing tree to []. -/
theorem c5_witness :
    c5_fs.source_exists = true
    ∧ find_audio_files c5_fs "src" "dst" =
        (c5_fs.files.filter fun f => is_audio_file f.name).map (mk_scan_item c5_fs "src" "dst")
    ∧ find_audio_files c5_fs "src" "dst" =
        [⟨"src/sub/deep/Song.M4A", "dst/Song.mp3", "Song.M4A", "Song.mp3", 5, false⟩]
    ∧ c5_fs_missing.source_exists = false
    ∧ find_audio_files c5_fs_missing "src" "dst" = [] :=
  ⟨rfl, (c5_scan_items c5_fs "src" "dst").2.1 rfl, by decide, rfl,
    (c5_scan_items c5_fs_missing "src" "dst").1 rfl⟩

/-- Raw metadata as the platform library exposes it on a YouTube object. -/
structure RawInfo where
  title : String
  author : String
  length : Nat
  views : Nat
  description : String
  thumbnail_url : String
  video_id : String
deriving DecidableEq

/-- The info dictionary built by get_youtube_info. -/
structure InfoDict where
  title : String
  author : String
  length : Nat
  views : Nat
  description : String
  thumbnail_url : String
  video_id : String
deriving DecidableEq

/-- The description field of the dictionary: cut to 200 characters with an
ellipsis marker when longer. -/
def description_excerpt (d : String) : String :=
  if d.length > 200 then String.mk (d.data.take 200) ++ "..." else d

/-- youtube_downloader.get_youtube_info over a lookup oracle standing for the
YouTube object construction and its attribute reads; any exception is caught
and returned as the error member of the tuple. -/
def get_youtube_info (lookup : String → Except String RawInfo) (url : String) :
    Bool × Option InfoDict × Option String :=
  match lookup url with
  | .error e => (false, none, some e)
  | .ok r =>
    (true, some ⟨r.title, r.author, r.length, r.views, description_excerpt r.description,
      r.thumbnail_url, r.video_id⟩, none)

/-- The external steps of download_youtube_audio, each an operation of the
platform or audio library that may raise: reading the title, querying the
audio-only streams (none when no audio stream exists), downloading to the
temporary directory, and the decode-and-export of the temporary file. -/
structure FetchEnv where
  title : Except String String
  audio_stream : Except String (Option String)
  download : Except String String
  export_res : Except String Unit

/-- The collision-suffix naming of the fetcher: the plain title for counter 0,
then the title with an appended counter. -/
def collision_name (title : String) : Nat → String
  | 0 => title ++ ".mp3"
  | Nat.succ n => title ++ " (" ++ toString (n + 1) ++ ").mp3"

/-- The while-loop over counters: the first output name whose path is not taken
on disk. The loop terminates because the filesystem is finite, so the search is
bounded by one more than the number of existing paths. -/
def output_name_for (dest_folder title : String) (fs : List String) : String :=
  match (List.range (fs.length + 1)).find?
      (fun k => !fs.contains (dest_folder ++ "/" ++ collision_name title k)) with
  | some k => collision_name title k
  | none => collision_name title (fs.length + 1)

/-- youtube_downloader.download_youtube_audio over a FetchEnv and a filesystem
view: every raised exception is converted to a failure tuple with the download
error message, a missing audio stream is the specific no-stream failure, and
only a fully successful chain returns success with the output path. -/
def download_youtube_audio (env : FetchEnv) (dest_folder : String) (fs : List String) :
    Bool × String × String :=
  match env.title with
  | .error e => (false, "", "İndirme hatası: " ++ e)
  | .ok rawTitle =>
    let title := String.mk (sanitize_filename rawTitle.data)
    match env.audio_stream with
    | .error e => (false, "", "İndirme hatası: " ++ e)
    | .ok none => (false, "", "Ses akışı bulunamadı")
    | .ok (some _) =>
      match env.download with
      | .error e => (false, "", "İndirme hatası: " ++ e)
      | .ok _tmp =>
        let output_filename := output_name_for dest_folder title fs
        let output_path := dest_folder ++ "/" ++ output_filename
        match env.export_res with
        | .error e => (false, "", "İndirme hatası: " ++ e)
        | .ok _ => (true, output_path, "Başarıyla indirildi: " ++ output_filename)

/-- C7: neither boundary lets an exception out. The resolver maps a failed
lookup to (false, none, message) and a successful one to (true, info, none);
the fetcher maps an exception at any step (metadata read, stream query,
download, export) to (false, empty path, message), reports the specific
no-audio-stream failure when the stream query returns none, and every failure
leaves the returned path empty. -/
theorem c7_boundaries_catch_all (lookup : String → Except String RawInfo)
    (url : String) (env : FetchEnv) (dest_folder : String) (fs : List String) :
    (∀ e, lookup url = .error e → get_youtube_info lookup url = (false, none, some e))
    ∧ (∀ r, lookup url = .ok r → (get_youtube_info lookup url).1 = true
        ∧ (get_youtube_info lookup url).2.2 = none)
    ∧ (∀ e, env.title = .error e →
        download_youtube_audio env dest_folder fs = (false, "", "İndirme hatası: " ++ e))
    ∧ (∀ t e, env.title = .ok t → env.audio_stream = .error e →
        download_youtube_audio env dest_folder fs = (false, "", "İndirme hatası: " ++ e))
    ∧ (∀ t, env.title = .ok t → env.audio_stream = .ok none →
        download_youtube_audio env dest_folder fs = (false, "", "Ses akışı bulunamadı"))
    ∧ (∀ t st e, env.title = .ok t → env.audio_stream = .ok (some st) →
        env.download = .error e →
        download_youtube_audio env dest_folder fs = (false, "", "İndirme hatası: " ++ e))
    ∧ (∀ t st tmp e, env.title = .ok t → env.audio_stream = .ok (some st) →
        env.download = .ok tmp → env.export_res = .error e →
        download_youtube_audio env dest_folder fs = (false, "", "İndirme hatası: " ++ e))
    ∧ ((download_youtube_audio env dest_folder fs).1 = false →
        (download_youtube_audio env dest_folder fs).2.1 = "") := by
  refine ⟨?_, ?_, ?_, ?_, ?_, ?_, ?_, ?_⟩
  · intro e he; simp [get_youtube_info, he]
  · intro r hr; simp [get_youtube_info, hr]
  · intro e he; simp [download_youtube_audio, he]
  · intro t e ht he; simp [download_youtube_audio, ht, he]
  · intro t ht hs; simp [download_youtube_audio, ht, hs]
  · intro t st e ht hs hd; simp [download_youtube_audio, ht, hs, hd]
  · intro t st tmp e ht hs hd hx; simp [download_youtube_audio, ht, hs, hd, hx]
  · rcases ht : env.title with e | t
    · simp [download_youtube_audio, ht]
    rcases hs : env.audio_stream with e | _ | st
    · simp [download_youtube_audio, ht, hs]
    · simp [download_youtube_audio, ht, hs]
    rcases hd : env.download with e | tmp
    · simp [download_youtube_audio, ht, hs, hd]
    rcases hx : env.export_res with e | u
    · simp [download_youtube_audio, ht, hs, hd, hx]
    · simp [download_youtube_audio, ht, hs, hd, hx]

/-- Concrete environments for the C7 witness. -/
def c7_env_fail : FetchEnv := ⟨.error "connection reset", .ok none, .ok "", .ok ()⟩

/-- Environment whose stream query finds no audio-only stream. -/
def c7_env_nostream : FetchEnv := ⟨.ok "My Song", .ok none, .ok "/tmp/f", .ok ()⟩

/-- Witness for C7 at concrete failing environments: the resolver failure tuple,
the fetcher failure tuple, and the specific no-stream failure. -/
theorem c7_witness :
    get_youtube_info (fun _ => .error "boom") "u" = (false, none, some "boom")
    ∧ download_youtube_audio c7_env_fail "dl" [] =
        (false, "", "İndirme hatası: " ++ "connection reset")
    ∧ download_youtube_audio c7_env_nostream "dl" [] = (false, "", "Ses akışı bulunamadı") :=
  ⟨(c7_boundaries_catch_all (fun _ => .error "boom") "u" c7_env_fail "dl" []).1 "boom" rfl,
    (c7_boundaries_catch_all (fun _ => .error "boom") "u" c7_env_fail "dl" []).2.2.1
      "connection reset" rfl,
    (c7_boundaries_catch_all (fun _ => .error "boom") "u" c7_env_nostream "dl" []).2.2.2.2.1
      "My Song" rfl rfl⟩

/-- Status of one queue item, as the status column tracks it. -/
inductive QStatus
  | pending
  | downloading
  | completed
  | failed
  | alreadyExists
deriving DecidableEq

/-- The test the code performs by searching the displayed status text for the
check-mark emoji: both the completed text and the already-exists text carry it. -/
def has_check (s : QStatus) : Bool :=
  s = QStatus.completed || s = QStatus.alreadyExists

/-- One entry of the youtube_queue list (paired with its tree row, whose status
column this model folds into status). -/
structure QueueItem where
  url : String
  dest : String
  title : String
  duration : String
  channel : String
  status : QStatus
  progress : String
  filename : String
  full_path : String
deriving DecidableEq

/-- The queue walk of download_next_youtube_video together with
youtube_queue_item_complete, over a fetch oracle (url, dest) to the
(success, file_path, message) tuple of the fetcher: in list order, an item whose
full_path exists on disk and whose status carries the check mark is marked
AlreadyExists and skipped; otherwise the fetcher runs, a success adds its
output path to the filesystem and marks Completed, a failure marks Failed.
Returns the final items, the final filesystem, and the urls fetched in order. -/
def run_queue (fetch : String → String → Bool × String × String) :
    List QueueItem → List String → List QueueItem × List String × List String
  | [], fs => ([], fs, [])
  | it :: rest, fs =>
    if fs.contains it.full_path && has_check it.status then
      let r := run_queue fetch rest fs
      ({ it with status := QStatus.alreadyExists } :: r.1, r.2.1, r.2.2)
    else
      let d := fetch it.url it.dest
      let fs1 := if d.1 then d.2.1 :: fs else fs
      let it1 := { it with status := if d.1 then QStatus.completed else QStatus.failed }
      let r := run_queue fetch rest fs1
      (it1 :: r.1, r.2.1, it.url :: r.2.2)

theorem run_queue_fs_mono (fetch : String → String → Bool × String × String) :
    ∀ (q : List QueueItem) (fs : List String) (x : String),
      x ∈ fs → x ∈ (run_queue fetch q fs).2.1 := by
  intro q
  induction q with
  | nil => intro fs x hx; simpa [run_queue] using hx
  | cons a rest ih =>
    intro fs x hx
    rw [run_queue]
    cases hcb : (fs.contains a.full_path && has_check a.status) with
    | true =>
      rw [if_pos rfl]
      exact ih fs x hx
    | false =>
      rw [if_neg (by simp)]
      refine ih _ x ?_
      cases hd : (fetch a.url a.dest).1 with
      | true =>
        rw [if_pos rfl]
        exact List.mem_cons_of_mem _ hx
      | false =>
        rw [if_neg (by simp)]
        exact hx

theorem run_queue_all_ok (fetch : String → String → Bool × String × String) :
    ∀ (q : List QueueItem) (fs : List String),
      (∀ it ∈ q, it.status = QStatus.pending) →
      (∀ it ∈ q, (fetch it.url it.dest).1 = true ∧ (fetch it.url it.dest).2.1 = it.full_path) →
      ∀ it ∈ (run_queue fetch q fs).1,
        it.status = QStatus.completed ∧ it.full_path ∈ (run_queue fetch q fs).2.1 := by
  intro q
  induction q with
  | nil => intro fs _ _ it hit; simp [run_queue] at hit
  | cons a rest ih =>
    intro fs hp hf
    have hpa := hp a (List.mem_cons_self a rest)
    have hfa := hf a (List.mem_cons_self a rest)
    have hcond : (fs.contains a.full_path && has_check a.status) = false := by
      rw [hpa]; simp [has_check]
    rw [run_queue, hcond]
    simp only [Bool.false_eq_true, if_false, hfa.1, if_true, hfa.2]
    intro it hit
    rcases List.mem_cons.1 hit with rfl | hit'
    · exact ⟨rfl, run_queue_fs_mono fetch rest (a.full_path :: fs) a.full_path
        (List.mem_cons_self _ _)⟩
    · exact ih (a.full_path :: fs)
        (fun x hx => hp x (List.mem_cons_of_mem a hx))
        (fun x hx => hf x (List.mem_cons_of_mem a hx)) it hit'

theorem run_queue_all_skip (fetch : String → String → Bool × String × String) :
    ∀ (q : List QueueItem) (fs : List String),
      (∀ it ∈ q, has_check it.status = true ∧ it.full_path ∈ fs) →
      run_queue fetch q fs =
        (q.map (fun it => { it with status := QStatus.alreadyExists }), fs, []) := by
  intro q
  induction q with
  | nil => intro fs _; simp [run_queue]
  | cons a rest ih =>
    intro fs h
    have ha := h a (List.mem_cons_self a rest)
    have hc2 : fs.contains a.full_path = true := List.elem_eq_true_of_mem ha.2
    have hcond : (fs.contains a.full_path && has_check a.status) = true := by
      rw [ha.1, hc2]; rfl
    rw [run_queue, hcond]
    simp only [if_true, ih fs (fun x hx => h x (List.mem_cons_of_mem a hx)), List.map_cons]

/-- C3 (amended): running the queue to completion and then a second time with no
filesystem change in between marks every item AlreadyExists on the second run
and invokes the fetcher for none, provided every item starts Pending and its
fetch succeeds into the item's computed full_path. The proviso is forced: an
item whose first-run fetch fails is retried on the second run, not marked
AlreadyExists (see the counterexample). -/
theorem c3_second_run_skips_all (fetch : String → String → Bool × String × String)
    (q : List QueueItem) (fs : List String)
    (hp : ∀ it ∈ q, it.status = QStatus.pending)
    (hf : ∀ it ∈ q, (fetch it.url it.dest).1 = true ∧
      (fetch it.url it.dest).2.1 = it.full_path) :
    (∀ it ∈ (run_queue fetch (run_queue fetch q fs).1 (run_queue fetch q fs).2.1).1,
        it.status = QStatus.alreadyExists)
    ∧ (run_queue fetch (run_queue fetch q fs).1 (run_queue fetch q fs).2.1).2.2 = [] := by
  have h1 := run_queue_all_ok fetch q fs hp hf
  have h2 := run_queue_all_skip fetch (run_queue fetch q fs).1 (run_queue fetch q fs).2.1
    (fun it hit => ⟨by simp [has_check, (h1 it hit).1], (h1 it hit).2⟩)
  rw [h2]
  refine ⟨?_, rfl⟩
  intro it hit
  obtain ⟨x, -, rfl⟩ := List.mem_map.1 hit
  rfl

/-- Queue item for the C3 counterexample. -/
def c3_item : QueueItem :=
  ⟨"u", "d", "t", "0:10", "ch", QStatus.pending, "0%", "t.mp3", "d/t.mp3"⟩

/-- Fetch oracle for the C3 counterexample: the download always fails. -/
def c3_fetch : String → String → Bool × String × String := fun _ _ => (false, "", "err")

/-- C3 counterexample: with a failing download, the second run re-fetches the
item (its url is fetched again) and leaves it Failed, not AlreadyExists, so the
unconditional idempotence of the claim does not hold. -/
theorem c3_counterexample :
    (run_queue c3_fetch (run_queue c3_fetch [c3_item] []).1
        (run_queue c3_fetch [c3_item] []).2.1).2.2 = ["u"]
    ∧ (run_queue c3_fetch (run_queue c3_fetch [c3_item] []).1
        (run_queue c3_fetch [c3_item] []).2.1).1 =
      [{ c3_item with status := QStatus.failed }] := by
  exact ⟨rfl, rfl⟩

/-- Queue item for the C3 witness. -/
def c3_ok_item : QueueItem :=
  ⟨"u1", "dl", "Song", "0:10", "ch", QStatus.pending, "0%", "Song.mp3", "dl/Song.mp3"⟩

/-- Fetch oracle for the C3 witness: the download succeeds into the computed path. -/
def c3_ok_fetch : String → String → Bool × String × String :=
  fun _ _ => (true, "dl/Song.mp3", "ok")

/-- Witness for C3's amended theorem at a concrete one-item queue whose fetch
succeeds: the second run marks it AlreadyExists and fetches nothing. -/
theorem c3_witness :
    (∀ it ∈ [c3_ok_item], it.status = QStatus.pending)
    ∧ (∀ it ∈ [c3_ok_item], (c3_ok_fetch it.url it.dest).1 = true ∧
        (c3_ok_fetch it.url it.dest).2.1 = it.full_path)
    ∧ (∀ it ∈ (run_queue c3_ok_fetch (run_queue c3_ok_fetch [c3_ok_item] []).1
          (run_queue c3_ok_fetch [c3_ok_item] []).2.1).1,
        it.status = QStatus.alreadyExists)
    ∧ (run_queue c3_ok_fetch (run_queue c3_ok_fetch [c3_ok_item] []).1
        (run_queue c3_ok_fetch [c3_ok_item] []).2.1).2.2 = [] :=
  ⟨by decide, by decide,
    (c3_second_run_skips_all c3_ok_fetch [c3_ok_item] [] (by decide) (by decide)).1,
    (c3_second_run_skips_all c3_ok_fetch [c3_ok_item] [] (by decide) (by decide)).2⟩

/-- Two-digit zero padding of the minute and second fields. -/
def pad2 (n : Nat) : String := if n < 10 then "0" ++ toString n else toString n

/-- youtube_downloader.format_duration. -/
def format_duration (seconds : Nat) : String :=
  if seconds = 0 then "0:00"
  else
    let hours := seconds / 3600
    let minutes := seconds % 3600 / 60
    let secs := seconds % 60
    if hours > 0 then toString hours ++ ":" ++ pad2 minutes ++ ":" ++ pad2 secs
    else toString minutes ++ ":" ++ pad2 secs

/-- The queue entry add_video_to_queue appends for an accepted url: the
computed filename and full path are derived once, here, with the queue-side
sanitizer. -/
def mk_queue_item (url dest : String) (info : InfoDict) : QueueItem :=
  let safe_title := String.mk (ModernAudioConverter.sanitize_filename info.title.data)
  let potential_filename := safe_title ++ ".mp3"
  let full_path := dest ++ "/" ++ potential_filename
  ⟨url, dest, info.title, format_duration info.length, info.author, QStatus.pending, "0%",
    potential_filename, full_path⟩

/-- modern_app add_video_to_queue: on a successful resolver tuple, compute the
target path, ask the user when it already exists on disk (declining leaves the
queue unchanged), otherwise append the new entry; a failed resolver tuple
leaves the queue unchanged. Returns the acceptance flag and the new queue. -/
def add_video_to_queue (queue : List QueueItem)
    (resolved : Bool × Option InfoDict × Option String) (url dest : String)
    (fs : List String) (user_confirms : Bool) : Bool × List QueueItem :=
  match resolved with
  | (true, some info, _) =>
    if fs.contains (mk_queue_item url dest info).full_path && !user_confirms then
      (false, queue)
    else (true, queue ++ [mk_queue_item url dest info])
  | _ => (false, queue)

/-- modern_app add_to_youtube_queue: the synchronous gate (URL shape, nonempty
destination folder, duplicate url by exact string match) followed by the
resolver outcome and add_video_to_queue. -/
def add_to_youtube_queue (queue : List QueueItem) (url dest : String)
    (resolved : Bool × Option InfoDict × Option String) (fs : List String)
    (user_confirms : Bool) : Bool × List QueueItem :=
  if !validate_youtube_url url.data then (false, queue)
  else if dest = "" then (false, queue)
  else if queue.any (fun it => it.url == url) then (false, queue)
  else add_video_to_queue queue resolved url dest fs user_confirms

theorem enqueue_spec (queue : List QueueItem) (url dest : String)
    (resolved : Bool × Option InfoDict × Option String) (fs : List String) (uc : Bool) :
    add_to_youtube_queue queue url dest resolved fs uc = (false, queue)
    ∨ (validate_youtube_url url.data = true ∧ dest ≠ ""
        ∧ queue.any (fun it => it.url == url) = false
        ∧ ∃ info : InfoDict,
            add_to_youtube_queue queue url dest resolved fs uc =
              (true, queue ++ [mk_queue_item url dest info])) := by
  by_cases hv : validate_youtube_url url.data
  case neg => left; simp [add_to_youtube_queue, hv]
  by_cases hd : dest = ""
  · left; simp [add_to_youtube_queue, hv, hd]
  by_cases hq : queue.any (fun it => it.url == url)
  · left; simp [add_to_youtube_queue, hv, hd, hq]
  obtain ⟨b, oi, oe⟩ := resolved
  cases b
  · left; simp [add_to_youtube_queue, add_video_to_queue, hv, hd, hq]
  cases oi with
  | none => left; simp [add_to_youtube_queue, add_video_to_queue, hv, hd, hq]
  | some info =>
    have hgate : ∀ r : Bool × List QueueItem,
        add_video_to_queue queue (true, some info, oe) url dest fs uc = r →
        add_to_youtube_queue queue url dest (true, some info, oe) fs uc = r := by
      intro r hr
      rw [add_to_youtube_queue, if_neg (by simp [hv]), if_neg hd, if_neg hq]
      exact hr
    by_cases hc : (fs.contains (mk_queue_item url dest info).full_path && !uc) = true
    · left
      refine hgate _ ?_
      simp only [add_video_to_queue]
      rw [if_pos hc]
    · right
      refine ⟨hv, hd, by simpa using hq, info, hgate _ ?_⟩
      simp only [add_video_to_queue]
      rw [if_neg hc]

/-- C9: the enqueue path rejects a request exactly as claimed (invalid URL,
empty destination folder, url already present by exact match), appends on
acceptance a single QueueItem whose url is exactly the enqueued string,
preserves distinctness of the urls in the queue, and rejects a second enqueue
of the same url. -/
theorem c9_enqueue_unique_urls (queue : List QueueItem) (url dest : String)
    (resolved : Bool × Option InfoDict × Option String) (fs : List String) (uc : Bool) :
    (validate_youtube_url url.data = false →
      add_to_youtube_queue queue url dest resolved fs uc = (false, queue))
    ∧ (dest = "" → add_to_youtube_queue queue url dest resolved fs uc = (false, queue))
    ∧ ((∃ it ∈ queue, it.url = url) →
      add_to_youtube_queue queue url dest resolved fs uc = (false, queue))
    ∧ ((add_to_youtube_queue queue url dest resolved fs uc).1 = true →
      ∃ item : QueueItem, item.url = url ∧
        (add_to_youtube_queue queue url dest resolved fs uc).2 = queue ++ [item])
    ∧ ((queue.map QueueItem.url).Nodup →
      (((add_to_youtube_queue queue url dest resolved fs uc).2).map QueueItem.url).Nodup)
    ∧ ((add_to_youtube_queue queue url dest resolved fs uc).1 = true →
      ∀ r2 fs2 uc2,
        add_to_youtube_queue (add_to_youtube_queue queue url dest resolved fs uc).2
            url dest r2 fs2 uc2 =
          (false, (add_to_youtube_queue queue url dest resolved fs uc).2)) := by
  refine ⟨?_, ?_, ?_, ?_, ?_, ?_⟩
  · intro hv; simp [add_to_youtube_queue, hv]
  · intro hd; subst hd
    by_cases hv : validate_youtube_url url.data <;> simp [add_to_youtube_queue, hv]
  · rintro ⟨it, hit, hurl⟩
    have hany : queue.any (fun i => i.url == url) = true :=
      List.any_eq_true.2 ⟨it, hit, by simp [hurl]⟩
    rcases enqueue_spec queue url dest resolved fs uc with h | ⟨-, -, hq, -⟩
    · exact h
    · rw [hany] at hq; cases hq
  · intro hacc
    rcases enqueue_spec queue url dest resolved fs uc with h | ⟨-, -, -, info, heq⟩
    · rw [h] at hacc; cases hacc
    · exact ⟨mk_queue_item url dest info, rfl, by rw [heq]⟩
  · intro hnd
    rcases enqueue_spec queue url dest resolved fs uc with h | ⟨-, -, hq, info, heq⟩
    · rw [h]; exact hnd
    · rw [heq]
      simp only [List.map_append, List.map_cons, List.map_nil]
      rw [List.nodup_append]
      refine ⟨hnd, List.nodup_singleton _, ?_⟩
      intro a ha hb
      simp only [List.mem_singleton] at hb
      obtain ⟨it, hit, hurl⟩ := List.mem_map.1 ha
      have hany : queue.any (fun i => i.url == url) = true :=
        List.any_eq_true.2 ⟨it, hit, by simp [hurl.trans hb, mk_queue_item]⟩
      rw [hany] at hq; cases hq
  · intro hacc r2 fs2 uc2
    rcases enqueue_spec queue url dest resolved fs uc with h | ⟨hv, hd, -, info, heq⟩
    · rw [h] at hacc; cases hacc
    · rw [heq]
      have hany : (queue ++ [mk_queue_item url dest info]).any (fun i => i.url == url) = true :=
        List.any_eq_true.2 ⟨mk_queue_item url dest info, by simp, by simp [mk_queue_item]⟩
      simp [add_to_youtube_queue, hv, hd, hany]

/-- Resolver info for the C9 witness. -/
def c9_info : InfoDict := ⟨"My Song", "Chan", 10, 5, "desc", "thumb", "dQw4w9WgXcQ"⟩

/-- URL for the C9 witness. -/
def c9_url : String := "https://youtu.be/dQw4w9WgXcQ"

/-- Witness for C9 at a concrete accepted enqueue into the empty queue: the
call is accepted, appends one item carrying exactly the enqueued url, keeps the
urls distinct, and a second enqueue of the same url is rejected. -/
theorem c9_witness :
    (add_to_youtube_queue [] c9_url "dl" (true, some c9_info, none) [] false).1 = true
    ∧ (∃ item : QueueItem, item.url = c9_url ∧
        (add_to_youtube_queue [] c9_url "dl" (true, some c9_info, none) [] false).2 =
          [] ++ [item])
    ∧ ((((add_to_youtube_queue [] c9_url "dl" (true, some c9_info, none) [] false).2).map
        QueueItem.url).Nodup)
    ∧ add_to_youtube_queue
          (add_to_youtube_queue [] c9_url "dl" (true, some c9_info, none) [] false).2
          c9_url "dl" (true, some c9_info, none) [] false =
        (false, (add_to_youtube_queue [] c9_url "dl" (true, some c9_info, none) [] false).2) :=
  ⟨by decide,
    (c9_enqueue_unique_urls [] c9_url "dl" (true, some c9_info, none) [] false).2.2.2.1
      (by decide),
    (c9_enqueue_unique_urls [] c9_url "dl" (true, some c9_info, none) [] false).2.2.2.2.1
      (by decide),
    (c9_enqueue_unique_urls [] c9_url "dl" (true, some c9_info, none) [] false).2.2.2.2.2
      (by decide) (true, some c9_info, none) [] false⟩
